import Mathlib

/-
Shallow embedding of the reconciliation core of the aws-route53 tool
(route53-zone.go): the diff engine (deltaBuilder, findRecordsToDelete,
findRecordsToAdd), the change builder (getChange), the zone-name lookup
(getHostedZoneIDByNameLookup) and the extraction fold
(getRoute53ZoneConfig / configBuildAllConfigs).

Modelling conventions:
- AWS SDK pointer fields (`*string`, `*int64`, `*bool`, pointers to
  structs and slices) are `Option _`; a nil pointer is `none`.
  `aws.StringValue` (nil ↦ "") is `stringValue` below.
- Go slices distinguish nil from non-nil-empty; slice-valued fields
  whose nil-ness the code tests (`!= nil`) are `Option (List _)`:
  `none` is the nil slice.  Appending to a nil slice yields a non-nil
  slice, so a slice built purely by `append` is nil exactly when it is
  empty; we model such a result `l` as `if l.isEmpty then none else some l`.
- `int64` TTLs are `Int`; the code only copies them, never computes,
  so no wrap-around modelling is needed.
- Functions that can call `log.Fatalf` return `Option _` (`none` is
  the fatal abort) or the explicit `GoResult` type; functions returning
  `(T, error)` with a possibly nil error return `T × Option String`.
- The Go field `Type` is written `«Type»` (Lean reserves `Type`).
-/

namespace Route53

/-- Model of `aws.StringValue`: dereference a possibly-nil `*string`, nil ↦ "". -/
def stringValue (s : Option String) : String := s.getD ""

/-- Model of `route53.ResourceRecord` (SDK type): `Value *string`. -/
structure AwsResourceRecord where
  Value : Option String
deriving DecidableEq

/-- Model of `route53.AliasTarget` (SDK type). -/
structure AwsAliasTarget where
  DNSName : Option String
  HostedZoneId : Option String
  EvaluateTargetHealth : Option Bool
deriving DecidableEq

/-- Model of `route53.ResourceRecordSet` (SDK type): all fields pointers,
`ResourceRecords` a possibly-nil slice. -/
structure AwsResourceRecordSet where
  Name : Option String
  «Type» : Option String
  TTL : Option Int
  AliasTarget : Option AwsAliasTarget
  ResourceRecords : Option (List AwsResourceRecord)
deriving DecidableEq

/-- Model of `route53.Change`: `Action *string`,
`ResourceRecordSet *route53.ResourceRecordSet` (always set where constructed,
so modelled as a plain field). -/
structure Change where
  Action : Option String
  ResourceRecordSet : AwsResourceRecordSet
deriving DecidableEq

/-- Config type `aliasTarget` (route53-zone.go lines 37-41): plain string/bool
fields populated from YAML, zero value is empty strings / false. -/
structure aliasTarget where
  HostedZoneID : String
  DNSName : String
  EvaluateTargetHealth : Bool
deriving DecidableEq

/-- Config type `resourceRecords` (lines 60-62). -/
structure resourceRecords where
  Value : String
deriving DecidableEq

/-- Config type `resourceRecordSet` (lines 65-71).  `ResourceRecords` is a Go
slice whose nil-ness `getChange` tests, hence `Option (List _)`. -/
structure resourceRecordSet where
  TTL : Int
  Name : String
  «Type» : String
  AliasTarget : aliasTarget
  ResourceRecords : Option (List resourceRecords)
deriving DecidableEq

/-- Config type `route53Zone` (lines 30-34). -/
structure route53Zone where
  Name : String
  ZoneID : String
  ResourceRecordSets : List resourceRecordSet
deriving DecidableEq

/-- The Go zero value of `aliasTarget`. -/
def zeroAliasTarget : aliasTarget :=
  { HostedZoneID := "", DNSName := "", EvaluateTargetHealth := false }

/-- Method `(*aliasTarget).getAliasDNSName` (lines 52-57).  In `getChange` the
receiver is the address of a struct field, never nil, so the nil-receiver
branch cannot fire; the value case returns `i.DNSName`. -/
def getAliasDNSName (i : aliasTarget) : String := i.DNSName

/-- `getChange` (lines 276-317).  If the config record set's `ResourceRecords`
slice is non-nil, build a literal-value change: every value is copied, TTL is
the constant 300, and the built `ResourceRecords` slice is nil when no value
was appended (empty source slice).  Otherwise, if the alias DNS name is
non-empty, build an alias change (no TTL).  Otherwise return the
`fmt.Errorf` error. -/
def getChange (changeType : String) (configrr : resourceRecordSet) :
    Except String Change :=
  match configrr.ResourceRecords with
  | some rrs =>
    let changeRR : List AwsResourceRecord :=
      rrs.map (fun trr => { Value := some trr.Value })
    Except.ok
      { Action := some changeType
        ResourceRecordSet :=
          { Name := some configrr.Name
            «Type» := some configrr.«Type»
            TTL := some 300
            AliasTarget := none
            ResourceRecords := if changeRR.isEmpty then none else some changeRR } }
  | none =>
    if getAliasDNSName configrr.AliasTarget ≠ "" then
      Except.ok
        { Action := some changeType
          ResourceRecordSet :=
            { Name := some configrr.Name
              «Type» := some configrr.«Type»
              TTL := none
              AliasTarget := some
                { DNSName := some configrr.AliasTarget.DNSName
                  HostedZoneId := some configrr.AliasTarget.HostedZoneID
                  EvaluateTargetHealth := some configrr.AliasTarget.EvaluateTargetHealth }
              ResourceRecords := none } }
    else
      Except.error ("no value was changed for record " ++ configrr.Name)

/-- Final value of the inner loop counter `j` of `findRecordsToDelete`
(lines 226-236): for `j` from 0 over the declared record sets, break at `j`
when the live record's type is `NS` or `SOA`, break at `j` on a (Name, Type)
match, otherwise run to `j = len2`.  The NS/SOA test sits inside the loop, so
with zero declared record sets it is never evaluated and the result is 0,
which equals `len2`. -/
def deleteScan (configSets : List resourceRecordSet) (rec : AwsResourceRecordSet) : Nat :=
  match configSets with
  | [] => 0
  | c :: rest =>
    if stringValue rec.«Type» == "NS" || stringValue rec.«Type» == "SOA" then 0
    else if c.Name == stringValue rec.Name && c.«Type» == stringValue rec.«Type» then 0
    else deleteScan rest rec + 1

/-- `findRecordsToDelete` (lines 218-243).  The outer loop starts at `i := 1`,
so the first live record (`awsrr[0]`) is never examined; a DELETE change is
appended exactly when the inner loop ran to completion (`j == len2`). -/
def findRecordsToDelete (configrr : route53Zone) (awsrr : List AwsResourceRecordSet) : List Change :=
  (awsrr.drop 1).filterMap (fun rec =>
    if deleteScan configrr.ResourceRecordSets rec == configrr.ResourceRecordSets.length then
      some { Action := some "DELETE", ResourceRecordSet := rec }
    else none)

/-- Final value of the inner loop counter `j` of `findRecordsToAdd`
(lines 255-261): break at `j` on a (Name, Type) match, otherwise `j = len2`. -/
def addScan (awsrr : List AwsResourceRecordSet) (c : resourceRecordSet) : Nat :=
  match awsrr with
  | [] => 0
  | r :: rest =>
    if c.Name == stringValue r.Name && c.«Type» == stringValue r.«Type» then 0
    else addScan rest c + 1

/-- Body of the outer loop of `findRecordsToAdd` (lines 253-270) over the
declared record sets it actually visits: emit `getChange "CREATE"` when no
live record matched; a `getChange` error is `log.Fatalf`, modelled `none`. -/
def findRecordsToAddLoop (awsrr : List AwsResourceRecordSet) :
    List resourceRecordSet → Option (List Change)
  | [] => some []
  | c :: rest =>
    if addScan awsrr c == awsrr.length then
      match getChange "CREATE" c with
      | Except.error _ => none
      | Except.ok ch => (findRecordsToAddLoop awsrr rest).map (fun l => ch :: l)
    else findRecordsToAddLoop awsrr rest

/-- `findRecordsToAdd` (lines 247-273).  The outer loop starts at `i := 1`, so
the first declared record set (`configrr.ResourceRecordSets[0]`) is never
examined. -/
def findRecordsToAdd (configrr : route53Zone) (awsrr : List AwsResourceRecordSet) :
    Option (List Change) :=
  findRecordsToAddLoop awsrr (configrr.ResourceRecordSets.drop 1)

/-- The UPSERT loop of `deltaBuilder` (lines 339-363): for each declared
record set in order (this loop does start at index 0), if a live record
matches its (Name, Type) and no change with that key is already in `changes`,
append `getChange "UPSERT"`; a `getChange` error is `log.Fatalf`, modelled
`none`. -/
def upsertLoop (records : List AwsResourceRecordSet) (changes : List Change) :
    List resourceRecordSet → Option (List Change)
  | [] => some changes
  | crr :: rest =>
    if records.any (fun rr =>
        crr.Name == stringValue rr.Name && crr.«Type» == stringValue rr.«Type») then
      if changes.any (fun change =>
          stringValue change.ResourceRecordSet.Name == crr.Name &&
          stringValue change.ResourceRecordSet.«Type» == crr.«Type») then
        upsertLoop records changes rest
      else
        match getChange "UPSERT" crr with
        | Except.error _ => none
        | Except.ok c => upsertLoop records (changes ++ [c]) rest
    else upsertLoop records changes rest

/-- The pure changeset computation of `deltaBuilder` (lines 321-370), after
zone-ID resolution and record listing: the UPSERT loop result, then the
deletions, then the creations, in that append order. -/
def deltaChanges (config : route53Zone) (records : List AwsResourceRecordSet) :
    Option (List Change) :=
  match upsertLoop records [] config.ResourceRecordSets with
  | none => none
  | some ups =>
    match findRecordsToAdd config records with
    | none => none
    | some creates => some (ups ++ findRecordsToDelete config records ++ creates)

/-- Model of `route53.HostedZone` as used by the lookup: `Id` and `Name` are
dereferenced unconditionally (`*zones[0].Id`), so carried as plain strings. -/
structure HostedZone where
  Id : String
  Name : String
deriving DecidableEq

/-- Outcome of a Go function that may terminate the process with
`log.Fatalf`. -/
inductive GoResult (α : Type) where
  | ret (v : α)
  | fatal (msg : String)
deriving DecidableEq

/-- `getHostedZoneIDByNameLookup` (lines 447-481), taking the outcome of the
`ListHostedZonesByName` call as input.  On a service error, return `("" , err)`.
With zero zones in the response, print and `return "", err` — at that point
`err` is nil, so the function returns an empty zone ID with a nil error.  On
a name mismatch, `log.Fatalf`.  Otherwise strip a leading `/hostedzone/`
from the zone ID and return it with a nil error. -/
def getHostedZoneIDByNameLookup (hostedZoneName : String)
    (lookupResp : Except String (List HostedZone)) : GoResult (String × Option String) :=
  match lookupResp with
  | Except.error e => GoResult.ret ("", some e)
  | Except.ok zones =>
    match zones with
    | [] => GoResult.ret ("", none)
    | z :: _ =>
      if z.Name ≠ hostedZoneName then
        GoResult.fatal ("Hosted zones names do not match, quiting: [" ++
          hostedZoneName ++ "] - [" ++ z.Name ++ "]")
      else
        GoResult.ret
          (if "/hostedzone/".isPrefixOf z.Id then z.Id.drop "/hostedzone/".length
           else z.Id, none)

/-- `getRoute53ZoneConfig` (lines 547-582): skip SOA and NS live records;
otherwise build a `resourceRecordSet` from the Go zero value by the source's
sequence of conditional assignments and append it to the configuration.  The
`rr.ResourceRecords` slice is built only by `append`, so it stays nil (none)
when the live record's value slice is nil or empty. -/
def getRoute53ZoneConfig (config : route53Zone) (rrset : AwsResourceRecordSet) : route53Zone :=
  if stringValue rrset.«Type» == "SOA" || stringValue rrset.«Type» == "NS" then config
  else
    let rr : resourceRecordSet :=
      { TTL := 0, Name := "", «Type» := "", AliasTarget := zeroAliasTarget,
        ResourceRecords := none }
    let rr := { rr with Name := stringValue rrset.Name }
    let rr := match rrset.TTL with
      | some t => { rr with TTL := t }
      | none => rr
    let rr := { rr with «Type» := stringValue rrset.«Type» }
    let rr := match rrset.AliasTarget with
      | some a => { rr with AliasTarget :=
          { DNSName := stringValue a.DNSName
            HostedZoneID := stringValue a.HostedZoneId
            EvaluateTargetHealth := a.EvaluateTargetHealth.getD false } }
      | none => rr
    let rr := match rrset.ResourceRecords with
      | some rs =>
        let vals := rs.map (fun r => ({ Value := stringValue r.Value } : resourceRecords))
        { rr with ResourceRecords := if vals.isEmpty then none else some vals }
      | none => rr
    { config with ResourceRecordSets := config.ResourceRecordSets ++ [rr] }

/-- The per-zone extraction fold of `configBuildAllConfigs` (lines 519-523):
`getRoute53ZoneConfig` applied to every listed record set in order. -/
def buildZoneConfig (init : route53Zone) (rrsets : List AwsResourceRecordSet) : route53Zone :=
  rrsets.foldl getRoute53ZoneConfig init

/-- Per-record view of `getRoute53ZoneConfig`: the record-set spec appended
for one live record, `none` when the record is skipped (SOA or NS).  Proved
below to agree with `getRoute53ZoneConfig`. -/
def liveRecordToSpec (rrset : AwsResourceRecordSet) : Option resourceRecordSet :=
  if stringValue rrset.«Type» == "SOA" || stringValue rrset.«Type» == "NS" then none
  else
    let rr : resourceRecordSet :=
      { TTL := 0, Name := "", «Type» := "", AliasTarget := zeroAliasTarget,
        ResourceRecords := none }
    let rr := { rr with Name := stringValue rrset.Name }
    let rr := match rrset.TTL with
      | some t => { rr with TTL := t }
      | none => rr
    let rr := { rr with «Type» := stringValue rrset.«Type» }
    let rr := match rrset.AliasTarget with
      | some a => { rr with AliasTarget :=
          { DNSName := stringValue a.DNSName
            HostedZoneID := stringValue a.HostedZoneId
            EvaluateTargetHealth := a.EvaluateTargetHealth.getD false } }
      | none => rr
    let rr := match rrset.ResourceRecords with
      | some rs =>
        let vals := rs.map (fun r => ({ Value := stringValue r.Value } : resourceRecords))
        { rr with ResourceRecords := if vals.isEmpty then none else some vals }
      | none => rr
    some rr

/-- Number of changes in a changeset whose record set carries the given
(Name, Type) key. -/
def countKey (changes : List Change) (name typ : String) : Nat :=
  changes.countP (fun change =>
    stringValue change.ResourceRecordSet.Name == name &&
    stringValue change.ResourceRecordSet.«Type» == typ)

/-- A live A record, used as the first element of live listings. -/
def firstLiveRecord : AwsResourceRecordSet :=
  { Name := some "a.example.com.", «Type» := some "A", TTL := some 300,
    AliasTarget := none, ResourceRecords := some [{ Value := some "1.2.3.4" }] }

/-- A live NS record, zone infrastructure. -/
def nsLiveRecord : AwsResourceRecordSet :=
  { Name := some "example.com.", «Type» := some "NS", TTL := some 172800,
    AliasTarget := none, ResourceRecords := some [{ Value := some "ns-1.awsdns-01.org." }] }

/-- A declared zone document with zero record sets. -/
def emptyZoneDoc : route53Zone :=
  { Name := "example.com.", ZoneID := "Z1", ResourceRecordSets := [] }

/-- The declared record set of the spec scenario:
`{Name: "a.example.com.", Type: A, Records: [1.2.3.4]}`. -/
def aSpec : resourceRecordSet :=
  { TTL := 0, Name := "a.example.com.", «Type» := "A",
    AliasTarget := zeroAliasTarget, ResourceRecords := some [{ Value := "1.2.3.4" }] }

/-- A declared document whose only record set is `aSpec`. -/
def singleDoc : route53Zone :=
  { Name := "example.com.", ZoneID := "Z1", ResourceRecordSets := [aSpec] }

/-- A declared record set distinct in key from the duplicated ones. -/
def headSpec : resourceRecordSet :=
  { TTL := 0, Name := "head.example.com.", «Type» := "A",
    AliasTarget := zeroAliasTarget, ResourceRecords := some [{ Value := "9.9.9.9" }] }

/-- First declared record set with key (dup.example.com., A). -/
def dupSpecA : resourceRecordSet :=
  { TTL := 0, Name := "dup.example.com.", «Type» := "A",
    AliasTarget := zeroAliasTarget, ResourceRecords := some [{ Value := "1.2.3.4" }] }

/-- Second declared record set with the same key (dup.example.com., A). -/
def dupSpecB : resourceRecordSet :=
  { TTL := 0, Name := "dup.example.com.", «Type» := "A",
    AliasTarget := zeroAliasTarget, ResourceRecords := some [{ Value := "5.6.7.8" }] }

/-- A declared document listing the key (dup.example.com., A) twice. -/
def dupZoneDoc : route53Zone :=
  { Name := "example.com.", ZoneID := "Z1",
    ResourceRecordSets := [headSpec, dupSpecA, dupSpecB] }

/-- A live record with the duplicated key (dup.example.com., A). -/
def dupLive : AwsResourceRecordSet :=
  { Name := some "dup.example.com.", «Type» := some "A", TTL := some 60,
    AliasTarget := none, ResourceRecords := some [{ Value := some "9.9.9.9" }] }

/-- The UPSERT change `getChange` builds from `dupSpecA`. -/
def dupUpsertChange : Change :=
  { Action := some "UPSERT",
    ResourceRecordSet :=
      { Name := some "dup.example.com.", «Type» := some "A", TTL := some 300,
        AliasTarget := none, ResourceRecords := some [{ Value := some "1.2.3.4" }] } }

/-- A declared record set with a declared TTL of 600 and a literal value
(first entry of the README example configuration). -/
def ttlSpec : resourceRecordSet :=
  { TTL := 600, Name := "somedomain.es.", «Type» := "A",
    AliasTarget := zeroAliasTarget, ResourceRecords := some [{ Value := "10.153.23.22" }] }

/-- A declared record set whose `ResourceRecords` slice is present but holds
zero values, with an empty alias DNS name. -/
def emptyListSpec : resourceRecordSet :=
  { TTL := 0, Name := "empty.example.com.", «Type» := "A",
    AliasTarget := zeroAliasTarget, ResourceRecords := some [] }

/-- A declared record set with an absent (nil) `ResourceRecords` slice and an
empty alias DNS name. -/
def nilRecordsSpec : resourceRecordSet :=
  { TTL := 0, Name := "bad.example.com.", «Type» := "A",
    AliasTarget := zeroAliasTarget, ResourceRecords := none }

/-- A declared record set carrying both literal values and a populated alias
target. -/
def bothSpec : resourceRecordSet :=
  { TTL := 0, Name := "both.example.com.", «Type» := "A",
    AliasTarget := { HostedZoneID := "Z2ALIAS", DNSName := "lb.example.com.",
                     EvaluateTargetHealth := false },
    ResourceRecords := some [{ Value := "10.0.0.1" }] }

/-- The record-set spec `liveRecordToSpec` builds from `firstLiveRecord`. -/
def firstLiveSpec : resourceRecordSet :=
  { TTL := 300, Name := "a.example.com.", «Type» := "A",
    AliasTarget := zeroAliasTarget, ResourceRecords := some [{ Value := "1.2.3.4" }] }

/-- Both branches of `getChange` that return a change stamp the declared
record set's Name and Type onto the built change. -/
lemma getChange_key (ct : String) (c : resourceRecordSet) (ch : Change)
    (h : getChange ct c = Except.ok ch) :
    stringValue ch.ResourceRecordSet.Name = c.Name ∧
    stringValue ch.ResourceRecordSet.«Type» = c.«Type» := by
  unfold getChange at h
  split at h
  · cases h; exact ⟨rfl, rfl⟩
  · split at h
    · cases h; exact ⟨rfl, rfl⟩
    · cases h

/-- Invariant of the UPSERT loop: if the incoming change list carries at most
one change per (Name, Type) key, so does the loop's result — a change is only
appended after the duplicate scan over the accumulated changes came back
empty. -/
lemma upsertLoop_countKey_le (records : List AwsResourceRecordSet) (name typ : String) :
    ∀ (cfgs : List resourceRecordSet) (changes ups : List Change),
      upsertLoop records changes cfgs = some ups →
      countKey changes name typ ≤ 1 → countKey ups name typ ≤ 1 := by
  intro cfgs
  induction cfgs with
  | nil =>
    intro changes ups h hle
    unfold upsertLoop at h
    cases h
    exact hle
  | cons crr rest ih =>
    intro changes ups h hle
    unfold upsertLoop at h
    split at h
    · split at h
      · exact ih changes ups h hle
      · next hnl =>
        split at h
        · cases h
        · next c heq =>
          refine ih _ ups h ?_
          obtain ⟨hn, ht⟩ := getChange_key _ _ _ heq
          have hna : changes.any (fun change =>
              stringValue change.ResourceRecordSet.Name == crr.Name &&
              stringValue change.ResourceRecordSet.«Type» == crr.«Type») = false := by
            simpa using hnl
          unfold countKey at hle ⊢
          rw [List.countP_append]
          by_cases hk : name = crr.Name ∧ typ = crr.«Type»
          · have h0 : changes.countP (fun change =>
                stringValue change.ResourceRecordSet.Name == name &&
                stringValue change.ResourceRecordSet.«Type» == typ) = 0 := by
              rw [List.countP_eq_zero]
              intro x hx
              have hfx := List.any_eq_false.1 hna x hx
              rw [hk.1, hk.2]
              simpa using hfx
            rw [h0]
            by_cases hc : (stringValue c.ResourceRecordSet.Name == name &&
                stringValue c.ResourceRecordSet.«Type» == typ) = true <;>
              simp [List.countP_cons, hc]
          · have h1 : List.countP (fun change =>
                stringValue change.ResourceRecordSet.Name == name &&
                stringValue change.ResourceRecordSet.«Type» == typ) [c] = 0 := by
              rw [List.countP_eq_zero]
              intro x hx
              simp only [List.mem_singleton] at hx
              subst hx
              rw [hn, ht]
              simp only [Bool.and_eq_true, beq_iff_eq, not_and]
              intro hname htyp
              exact hk ⟨hname.symm, htyp.symm⟩
            omega
    · exact ih changes ups h hle

/-- One step of the extraction fold either leaves the configuration unchanged
(SOA/NS) or appends the per-record spec. -/
lemma getRoute53ZoneConfig_eq (config : route53Zone) (r : AwsResourceRecordSet) :
    getRoute53ZoneConfig config r =
      match liveRecordToSpec r with
      | none => config
      | some s => { config with ResourceRecordSets := config.ResourceRecordSets ++ [s] } := by
  cases hc : (stringValue r.«Type» == "SOA" || stringValue r.«Type» == "NS") <;>
    simp [getRoute53ZoneConfig, liveRecordToSpec, hc]

/-- The extraction fold appends exactly the per-record specs of the
non-skipped live records, in listing order. -/
lemma buildZoneConfig_rrs (init : route53Zone) (rrsets : List AwsResourceRecordSet) :
    (buildZoneConfig init rrsets).ResourceRecordSets =
      init.ResourceRecordSets ++ rrsets.filterMap liveRecordToSpec := by
  induction rrsets generalizing init with
  | nil => simp [buildZoneConfig]
  | cons r rest ih =>
    unfold buildZoneConfig at ih ⊢
    simp only [List.foldl_cons, List.filterMap_cons]
    rw [getRoute53ZoneConfig_eq]
    cases hlr : liveRecordToSpec r with
    | none => simpa using ih init
    | some s =>
      rw [ih]
      simp

/-- A live record is skipped by extraction exactly when its type is SOA or
NS. -/
lemma liveRecordToSpec_none_iff (r : AwsResourceRecordSet) :
    liveRecordToSpec r = none ↔
      (stringValue r.«Type» = "SOA" ∨ stringValue r.«Type» = "NS") := by
  cases hc : (stringValue r.«Type» == "SOA" || stringValue r.«Type» == "NS") with
  | false =>
    have hc2 := hc
    simp only [Bool.or_eq_false_iff, beq_eq_false_iff_ne] at hc2
    simp [liveRecordToSpec, hc, hc2.1, hc2.2]
  | true =>
    have hc2 := hc
    simp only [Bool.or_eq_true, beq_iff_eq] at hc2
    simp [liveRecordToSpec, hc, hc2]

/-- Field contents of the spec extraction builds for a non-skipped live
record: name and type are the dereferenced live values, TTL is copied only
when present (Go zero value 0 otherwise), alias fields only when an alias is
present (zero value otherwise), and the literal-value list only when the live
record carries a non-empty value slice (nil otherwise). -/
lemma liveRecordToSpec_fields (r : AwsResourceRecordSet) (s : resourceRecordSet)
    (h : liveRecordToSpec r = some s) :
    s.Name = stringValue r.Name ∧
    s.«Type» = stringValue r.«Type» ∧
    s.TTL = (match r.TTL with | some t => t | none => 0) ∧
    s.AliasTarget = (match r.AliasTarget with
      | some a =>
        { DNSName := stringValue a.DNSName
          HostedZoneID := stringValue a.HostedZoneId
          EvaluateTargetHealth := a.EvaluateTargetHealth.getD false }
      | none => zeroAliasTarget) ∧
    s.ResourceRecords = (match r.ResourceRecords with
      | some rs =>
        if rs.isEmpty then none
        else some (rs.map (fun v => { Value := stringValue v.Value }))
      | none => none) := by
  unfold liveRecordToSpec at h
  split at h
  · cases h
  · obtain ⟨n, ty, ttl, ali, rrs⟩ := r
    cases h
    cases ttl <;> cases ali <;> rcases rrs with _ | ⟨_ | ⟨v, vs⟩⟩ <;>
      exact ⟨rfl, rfl, rfl, rfl, rfl⟩

/-- Claim C1 (code divergence, evaluated at the failing input): the claim
says NS and SOA live records never appear as DELETE targets, in particular
when the declared document has zero record sets.  Because the NS/SOA guard
sits inside the inner loop over the declared record sets, a document with
zero record sets never evaluates it, and the inner loop counter trivially
equals `len2 = 0`, so `findRecordsToDelete` (and the full diff) emits a
DELETE change for a live NS record. -/
theorem findRecordsToDelete_emits_ns_delete_on_empty_doc :
    findRecordsToDelete emptyZoneDoc [firstLiveRecord, nsLiveRecord] =
      [{ Action := some "DELETE", ResourceRecordSet := nsLiveRecord }] ∧
    deltaChanges emptyZoneDoc [firstLiveRecord, nsLiveRecord] =
      some [{ Action := some "DELETE", ResourceRecordSet := nsLiveRecord }] := by
  decide

/-- Claim C2 (counterexample): the claim says the diff contains at most one
change per (Name, Type) key even when the declared document lists duplicate
keys.  For a document declaring the key (dup.example.com., A) twice with no
matching live record, the changeset contains two CREATE changes with that
key: duplicate suppression exists only in the UPSERT pass of
`deltaBuilder`, not in `findRecordsToAdd`. -/
theorem deltaChanges_duplicate_create_key :
    countKey ((deltaChanges dupZoneDoc []).getD []) "dup.example.com." "A" = 2 := by
  decide

/-- Claim C2 (amended): the UPSERT pass of `deltaBuilder` emits at most one
change per (Name, Type) key — the first declared occurrence wins and later
duplicates are silently absorbed; that uniqueness does not extend to the
CREATE (or DELETE) portions of the changeset. -/
theorem upsertLoop_unique_per_key (config : route53Zone)
    (records : List AwsResourceRecordSet) (ups : List Change)
    (h : upsertLoop records [] config.ResourceRecordSets = some ups)
    (name typ : String) : countKey ups name typ ≤ 1 :=
  upsertLoop_countKey_le records name typ config.ResourceRecordSets [] ups h
    (by simp [countKey])

/-- Claim C2 (witness): the amended statement at a document declaring one key
twice, with a live record matching that key: the UPSERT pass emits a single
change for the duplicated key. -/
theorem upsertLoop_unique_per_key_witness :
    upsertLoop [dupLive] [] dupZoneDoc.ResourceRecordSets = some [dupUpsertChange] ∧
    countKey [dupUpsertChange] "dup.example.com." "A" ≤ 1 :=
  ⟨by decide,
   upsertLoop_unique_per_key dupZoneDoc [dupLive] [dupUpsertChange] (by decide)
     "dup.example.com." "A"⟩

/-- Claim C3 (code divergence, evaluated at the failing input): the claim
says every declared record set with no matching live record — including the
first one — yields exactly one CREATE.  The outer loop of `findRecordsToAdd`
starts at index 1, so a document whose only record set is the spec scenario's
`a.example.com. A [1.2.3.4]`, diffed against an empty live zone, produces no
CREATE at all. -/
theorem findRecordsToAdd_skips_first_declared :
    findRecordsToAdd singleDoc [] = some [] ∧
    deltaChanges singleDoc [] = some [] := by
  decide

/-- Claim C4 (code divergence, evaluated at the failing input): the claim
says every unmatched live record of type other than NS/SOA — including the
first one — yields exactly one DELETE.  The outer loop of
`findRecordsToDelete` starts at index 1, so a live zone whose only record is
an unmatched A record, diffed against an empty document, produces no DELETE
at all (and hence no all-DELETE changeset). -/
theorem findRecordsToDelete_skips_first_live :
    findRecordsToDelete emptyZoneDoc [firstLiveRecord] = [] ∧
    deltaChanges emptyZoneDoc [firstLiveRecord] = some [] := by
  decide

/-- Claim C5 (counterexample): the claim says the built change carries the
declared TTL when one is present.  For a record set declaring TTL 600 with a
literal value, `getChange` builds a change whose TTL is the constant 300 —
the declared TTL is never read. -/
theorem getChange_ignores_declared_ttl :
    ttlSpec.TTL = 600 ∧
    getChange "CREATE" ttlSpec = Except.ok
      { Action := some "CREATE"
        ResourceRecordSet :=
          { Name := some "somedomain.es.", «Type» := some "A", TTL := some 300,
            AliasTarget := none,
            ResourceRecords := some [{ Value := some "10.153.23.22" }] } } :=
  ⟨rfl, rfl⟩

/-- Claim C5 (amended): for every record set whose `ResourceRecords` slice is
present, the change built by `getChange` carries the fixed TTL of 300
seconds, regardless of any declared TTL. -/
theorem getChange_literal_ttl_always_300 (ct : String) (spec : resourceRecordSet)
    (l : List resourceRecords) (h : spec.ResourceRecords = some l) :
    ∃ ch, getChange ct spec = Except.ok ch ∧
      ch.ResourceRecordSet.TTL = some 300 := by
  unfold getChange
  rw [h]
  exact ⟨_, rfl, rfl⟩

/-- Claim C5 (witness): the amended statement at the record set declaring
TTL 600. -/
theorem getChange_literal_ttl_always_300_witness :
    ttlSpec.ResourceRecords = some [{ Value := "10.153.23.22" }] ∧
    ∃ ch, getChange "UPSERT" ttlSpec = Except.ok ch ∧
      ch.ResourceRecordSet.TTL = some 300 :=
  ⟨rfl, getChange_literal_ttl_always_300 "UPSERT" ttlSpec _ rfl⟩

/-- Claim C6: builder precedence.  (1) A record set with a present, non-empty
`ResourceRecords` slice always yields a literal-value change carrying every
declared value verbatim and no alias target — even when an alias target is
also populated; (2) a record set with a nil `ResourceRecords` slice and a
non-empty alias DNS name yields an alias change carrying the target zone id,
target DNS name and health-evaluation flag, with no TTL at all; (3) an alias
change is produced only under those conditions. -/
theorem getChange_literal_precedence :
    (∀ (ct : String) (spec : resourceRecordSet) (l : List resourceRecords),
       spec.ResourceRecords = some l → l ≠ [] →
       ∃ ch, getChange ct spec = Except.ok ch ∧
         ch.ResourceRecordSet.ResourceRecords =
           some (l.map (fun t => { Value := some t.Value })) ∧
         ch.ResourceRecordSet.AliasTarget = none)
    ∧ (∀ (ct : String) (spec : resourceRecordSet),
       spec.ResourceRecords = none → spec.AliasTarget.DNSName ≠ "" →
       getChange ct spec = Except.ok
         { Action := some ct
           ResourceRecordSet :=
             { Name := some spec.Name, «Type» := some spec.«Type», TTL := none
               AliasTarget := some
                 { DNSName := some spec.AliasTarget.DNSName
                   HostedZoneId := some spec.AliasTarget.HostedZoneID
                   EvaluateTargetHealth := some spec.AliasTarget.EvaluateTargetHealth }
               ResourceRecords := none } })
    ∧ (∀ (ct : String) (spec : resourceRecordSet) (ch : Change),
       getChange ct spec = Except.ok ch → ch.ResourceRecordSet.AliasTarget ≠ none →
       spec.ResourceRecords = none ∧ spec.AliasTarget.DNSName ≠ "") := by
  refine ⟨?_, ?_, ?_⟩
  · intro ct spec l h hne
    unfold getChange
    rw [h]
    cases l with
    | nil => exact absurd rfl hne
    | cons a as => exact ⟨_, rfl, rfl, rfl⟩
  · intro ct spec h1 h2
    unfold getChange
    rw [h1]
    simp [getAliasDNSName, h2]
  · intro ct spec ch h halias
    unfold getChange at h
    split at h
    · cases h; exact absurd rfl halias
    · next heq =>
      split at h
      · next hdns => exact ⟨heq, by simpa [getAliasDNSName] using hdns⟩
      · cases h

/-- Claim C6 (witness): the precedence statement at a record set carrying
both a literal value and a populated alias target: `getChange` builds the
literal-value change. -/
theorem getChange_literal_precedence_witness :
    bothSpec.ResourceRecords = some [{ Value := "10.0.0.1" }] ∧
    ([{ Value := "10.0.0.1" }] : List resourceRecords) ≠ [] ∧
    (∃ ch, getChange "UPSERT" bothSpec = Except.ok ch ∧
      ch.ResourceRecordSet.ResourceRecords = some [{ Value := some "10.0.0.1" }] ∧
      ch.ResourceRecordSet.AliasTarget = none) :=
  ⟨rfl, by decide, by
    have hmain := getChange_literal_precedence.1 "UPSERT" bothSpec
      [{ Value := "10.0.0.1" }] rfl (by decide)
    simpa using hmain⟩

/-- Claim C7 (counterexample): the claim says every spec with an empty
`Records` list and an empty alias DNS name makes `getChange` fail.  A spec
whose `ResourceRecords` slice is present but holds zero values is an empty
list, yet `getChange` takes the literal-value branch (the Go test is
`!= nil`, not emptiness) and returns a change, not an error. -/
theorem getChange_empty_records_list_ok :
    emptyListSpec.ResourceRecords = some [] ∧
    emptyListSpec.AliasTarget.DNSName = "" ∧
    getChange "UPSERT" emptyListSpec = Except.ok
      { Action := some "UPSERT"
        ResourceRecordSet :=
          { Name := some "empty.example.com.", «Type» := some "A", TTL := some 300,
            AliasTarget := none, ResourceRecords := none } } :=
  ⟨rfl, rfl, rfl⟩

/-- Claim C7 (amended): for every spec whose `ResourceRecords` slice is
absent (nil) and whose alias DNS name is empty, `getChange` returns the
error `fmt.Errorf("no value was changed for record %s", name)`, whose message
names the offending record. -/
theorem getChange_error_on_nil_records (ct : String) (spec : resourceRecordSet)
    (h1 : spec.ResourceRecords = none) (h2 : spec.AliasTarget.DNSName = "") :
    getChange ct spec =
      Except.error ("no value was changed for record " ++ spec.Name) := by
  unfold getChange
  rw [h1]
  simp [getAliasDNSName, h2]

/-- Claim C7 (witness): the amended statement at a concrete nil-records,
empty-alias spec. -/
theorem getChange_error_on_nil_records_witness :
    nilRecordsSpec.ResourceRecords = none ∧
    nilRecordsSpec.AliasTarget.DNSName = "" ∧
    getChange "CREATE" nilRecordsSpec =
      Except.error "no value was changed for record bad.example.com." :=
  ⟨rfl, rfl, getChange_error_on_nil_records "CREATE" nilRecordsSpec rfl rfl⟩

/-- Claim C8 (code divergence, evaluated at the failing input): the claim
says a lookup response with zero hosted zones produces a non-nil error.  At
that point in `getHostedZoneIDByNameLookup` the local `err` is nil, and the
code executes `return "", err` — so the function returns an empty zone ID
together with a nil error, i.e. success. -/
theorem getHostedZoneIDByNameLookup_zero_zones_nil_error :
    getHostedZoneIDByNameLookup "example.com." (Except.ok []) =
      GoResult.ret ("", none) := by
  decide

/-- Claim C9: the extraction fold over any live listing appends, in listing
order, exactly one record-set spec per live record whose type is neither SOA
nor NS (SOA and NS records are omitted); each appended spec carries the live
record's name and type, its TTL only when present, its alias fields only
when an alias is present, and its literal values only when present. -/
theorem extraction_fold_characterization :
    (∀ (init : route53Zone) (rrsets : List AwsResourceRecordSet),
       (buildZoneConfig init rrsets).ResourceRecordSets =
         init.ResourceRecordSets ++ rrsets.filterMap liveRecordToSpec)
    ∧ (∀ r : AwsResourceRecordSet,
       liveRecordToSpec r = none ↔
         (stringValue r.«Type» = "SOA" ∨ stringValue r.«Type» = "NS"))
    ∧ (∀ (r : AwsResourceRecordSet) (s : resourceRecordSet),
       liveRecordToSpec r = some s →
       s.Name = stringValue r.Name ∧
       s.«Type» = stringValue r.«Type» ∧
       s.TTL = (match r.TTL with | some t => t | none => 0) ∧
       s.AliasTarget = (match r.AliasTarget with
         | some a =>
           { DNSName := stringValue a.DNSName
             HostedZoneID := stringValue a.HostedZoneId
             EvaluateTargetHealth := a.EvaluateTargetHealth.getD false }
         | none => zeroAliasTarget) ∧
       s.ResourceRecords = (match r.ResourceRecords with
         | some rs =>
           if rs.isEmpty then none
           else some (rs.map (fun v => { Value := stringValue v.Value }))
         | none => none)) :=
  ⟨buildZoneConfig_rrs, liveRecordToSpec_none_iff, liveRecordToSpec_fields⟩

/-- Claim C9 (witness): the per-record characterization at a concrete live A
record. -/
theorem extraction_fold_characterization_witness :
    liveRecordToSpec firstLiveRecord = some firstLiveSpec ∧
    (firstLiveSpec.Name = stringValue firstLiveRecord.Name ∧
     firstLiveSpec.«Type» = stringValue firstLiveRecord.«Type» ∧
     firstLiveSpec.TTL = (match firstLiveRecord.TTL with | some t => t | none => 0) ∧
     firstLiveSpec.AliasTarget = (match firstLiveRecord.AliasTarget with
       | some a =>
         { DNSName := stringValue a.DNSName
           HostedZoneID := stringValue a.HostedZoneId
           EvaluateTargetHealth := a.EvaluateTargetHealth.getD false }
       | none => zeroAliasTarget) ∧
     firstLiveSpec.ResourceRecords = (match firstLiveRecord.ResourceRecords with
       | some rs =>
         if rs.isEmpty then none
         else some (rs.map (fun v => { Value := stringValue v.Value }))
       | none => none)) :=
  ⟨by decide,
   extraction_fold_characterization.2.2 firstLiveRecord firstLiveSpec (by decide)⟩

/-- Claim C10: `getChange` returns an error exactly when the spec's
`ResourceRecords` slice is absent (nil) and the alias DNS name is empty; a
spec whose `ResourceRecords` slice is present but holds zero values takes
the literal-value branch and yields a change with a nil value list and TTL
300, never the alias branch or the error. -/
theorem getChange_error_iff_nil_records_and_empty_dns :
    (∀ (ct : String) (spec : resourceRecordSet),
       (∃ e, getChange ct spec = Except.error e) ↔
         (spec.ResourceRecords = none ∧ spec.AliasTarget.DNSName = ""))
    ∧ (∀ (ct : String) (spec : resourceRecordSet),
       spec.ResourceRecords = some [] →
       getChange ct spec = Except.ok
         { Action := some ct
           ResourceRecordSet :=
             { Name := some spec.Name, «Type» := some spec.«Type», TTL := some 300
               AliasTarget := none, ResourceRecords := none } }) := by
  constructor
  · intro ct spec
    constructor
    · rintro ⟨e, he⟩
      unfold getChange at he
      split at he
      · cases he
      · next heq =>
        split at he
        · cases he
        · next hdns => exact ⟨heq, by simpa [getAliasDNSName] using hdns⟩
    · rintro ⟨h1, h2⟩
      refine ⟨"no value was changed for record " ++ spec.Name, ?_⟩
      unfold getChange
      rw [h1]
      simp [getAliasDNSName, h2]
  · intro ct spec h
    unfold getChange
    rw [h]
    rfl

/-- Claim C10 (witness): the present-but-empty-records case at a concrete
spec: `getChange` builds a literal-value change with a nil value list and
TTL 300. -/
theorem getChange_error_iff_nil_records_and_empty_dns_witness :
    emptyListSpec.ResourceRecords = some [] ∧
    getChange "CREATE" emptyListSpec = Except.ok
      { Action := some "CREATE"
        ResourceRecordSet :=
          { Name := some "empty.example.com.", «Type» := some "A", TTL := some 300,
            AliasTarget := none, ResourceRecords := none } } :=
  ⟨rfl, getChange_error_iff_nil_records_and_empty_dns.2 "CREATE" emptyListSpec rfl⟩

end Route53
